import Mathlib

/-!
Verification of the per-guild playback state machine and queue scheduler of
the music bot (source: main1.2.py, the latest of the three successive
versions and the one the specification targets).

Python values read from untyped dicts are modelled as `Option`-typed fields;
Python truthiness of strings ("" and None are falsy) and of numbers (0 is
falsy) is made explicit through the helpers `truthyS`, `pyOrS`, `pyOrStr`
and `pyOrN`.  External collaborators (the chat platform, yt-dlp, the voice
connection) are modelled at their interface boundary: their answers are
parameters of the embedded functions.
-/

namespace Yuki

/-- Track model: main1.2.py lines 127-131.  `page` defaults to `url` when no
distinct page is given (the `page or url` in the constructor). -/
structure Track where
  url : String
  title : String
  page : String
deriving DecidableEq, Repr

/-- Lightweight search hit: main1.2.py lines 133-138. -/
structure TrackLite where
  title : String
  page : String
  duration : Option Nat
  channel : Option String
deriving DecidableEq, Repr

/-- Python truthiness of an optional string: None and "" are falsy. -/
def truthyS : Option String → Bool
  | some s => !(s == "")
  | none => false

/-- Python `x or y` on optional strings ("" and None are falsy). -/
def pyOrS : Option String → Option String → Option String
  | some s, y => if s == "" then y else some s
  | none, y => y

/-- Python `x or d` where `d` is a plain string default. -/
def pyOrStr (x : Option String) (d : String) : String :=
  match x with
  | some s => if s == "" then d else s
  | none => d

/-- Python `x or y` on optional numbers (None and 0 are falsy). -/
def pyOrN (x : Option Nat) (y : Nat) : Nat :=
  match x with
  | some v => if v == 0 then y else v
  | none => y

/-! ## Full resolution: client retry (main1.2.py lines 292-299, claim C5) -/

/-- Substring containment over character lists, embedding the Python
string operator `in`: the needle is a prefix of some suffix of the hay. -/
def list_contains (needle : List Char) : List Char → Bool
  | [] => needle.isEmpty
  | c :: rest => needle.isPrefixOf (c :: rest) || list_contains needle rest

/-- Retry condition of main1.2.py line 297: the lowercased text of the
exception contains the substring "not available on this app".  Python
`str.lower()` is modelled character-wise with `Char.toLower` (the needle is
plain ASCII, where the two coincide). -/
def not_available_on_app (e : String) : Bool :=
  list_contains "not available on this app".data (e.data.map Char.toLower)

/-- Embeds the try/except around `_extract` in `ytdlp_extract_one`
(main1.2.py lines 292-299).  `primary` is the outcome of `_extract("web")`,
`fallback` the outcome of `_extract("android")`; both are environment
parameters since `_extract` calls the external yt-dlp library. -/
def ytdlp_extract_retry (primary fallback : Except String Track) :
    Except String Track :=
  match primary with
  | .ok t => .ok t
  | .error e => if not_available_on_app e then fallback else .error e

/-! ## URL dispatch (main1.2.py lines 238-239 and 383-434, claim C10) -/

/-- Matcher for the regular expression `^https?://` of main1.2.py line 239:
the characters h,t,t,p, an optional s, then `://`, anchored at the start. -/
def re_match_https (cs : List Char) : Bool :=
  match cs with
  | 'h' :: 't' :: 't' :: 'p' :: rest =>
    match rest with
    | 's' :: ':' :: '/' :: '/' :: _ => true
    | ':' :: '/' :: '/' :: _ => true
    | _ => false
  | _ => false

/-- main1.2.py lines 238-239: `re.match(r"^https?://", text)`. -/
def is_url (text : String) : Bool :=
  re_match_https text.data

/-- The branch `cmd_play` takes for a given invocation
(main1.2.py lines 383-434). -/
inductive PlayBranch where
  | needVoice
  | attachTrack
  | directLink
  | searchTerm
  | help
deriving DecidableEq, Repr

/-- Branch selection of `cmd_play` (main1.2.py lines 383-434): reject when
the author has no voice channel (line 388); play the attachment when the
query is falsy and an attachment is present (line 394); full-extract
immediately when the query is truthy and `is_url` holds (line 399); search
when the query is truthy (line 407); otherwise reply with usage help
(line 433).  `query.getD ""` is only read under `truthyS query`, where the
query is a nonempty string. -/
def cmd_play_branch (authorInVoice : Bool) (query : Option String)
    (hasAttachment : Bool) : PlayBranch :=
  if !authorInVoice then .needVoice
  else if !(truthyS query) && hasAttachment then .attachTrack
  else if truthyS query && is_url (query.getD "") then .directLink
  else if truthyS query then .searchTerm
  else .help

theorem re_match_https_iff (cs : List Char) :
    re_match_https cs = true ↔
      (['h','t','t','p',':','/','/'] <+: cs ∨
       ['h','t','t','p','s',':','/','/'] <+: cs) := by
  constructor
  · intro h
    unfold re_match_https at h
    split at h
    · split at h
      · right; exact ⟨_, rfl⟩
      · left; exact ⟨_, rfl⟩
      · simp at h
    · simp at h
  · rintro (⟨tl, rfl⟩ | ⟨tl, rfl⟩) <;> rfl

theorem is_url_iff (s : String) :
    is_url s = true ↔
      (['h','t','t','p',':','/','/'] <+: s.data ∨
       ['h','t','t','p','s',':','/','/'] <+: s.data) :=
  re_match_https_iff s.data

/-- C10: for every non-empty play query issued by a user in a voice
channel, `cmd_play` resolves the query immediately as a direct link exactly
when it begins with the literal character sequence `http://` or `https://`
(case-sensitive, since the matcher compares literal characters); every
other non-empty query goes to the flat-search branch producing a candidate
list. -/
theorem C10_url_dispatch (s : String) (att : Bool) (h : s ≠ "") :
    (cmd_play_branch true (some s) att = .directLink ↔
       (['h','t','t','p',':','/','/'] <+: s.data ∨
        ['h','t','t','p','s',':','/','/'] <+: s.data)) ∧
    (¬ (['h','t','t','p',':','/','/'] <+: s.data ∨
        ['h','t','t','p','s',':','/','/'] <+: s.data) →
       cmd_play_branch true (some s) att = .searchTerm) := by
  have ht : truthyS (some s) = true := by
    simp [truthyS, h]
  have key : cmd_play_branch true (some s) att = .directLink ↔
      is_url s = true := by
    cases hu : is_url s <;> simp [cmd_play_branch, ht, hu]
  refine ⟨key.trans (is_url_iff s), ?_⟩
  intro hnot
  have hu : is_url s = false := by
    cases hu : is_url s
    · rfl
    · exact absurd ((is_url_iff s).mp hu) hnot
  simp [cmd_play_branch, ht, hu]

/-- Witness for C10 at the concrete inputs "https://example.com/video" and
"hello world". -/
theorem C10_url_dispatch_witness :
    cmd_play_branch true (some "https://example.com/video") false
        = .directLink ∧
    cmd_play_branch true (some "hello world") false = .searchTerm := by
  constructor
  · exact (C10_url_dispatch "https://example.com/video" false
      (by decide)).1.mpr (Or.inr (by decide))
  · exact (C10_url_dispatch "hello world" false (by decide)).2
      (by decide)

/-- C5: the full-resolution retry wrapper retries exactly once with the
fallback client identity precisely when the primary extraction fails with
the "not available on this app" condition; a primary success is returned
as is, and any other primary failure propagates immediately.  The result
being `fallback` itself (whatever it is, success or failure) renders the
"exactly once" part: even a fallback failure satisfying the condition is
not retried again. -/
theorem C5_extract_retry (t : Track) (e : String)
    (fb : Except String Track) :
    (ytdlp_extract_retry (.ok t) fb = .ok t) ∧
    (not_available_on_app e = true →
      ytdlp_extract_retry (.error e) fb = fb) ∧
    (not_available_on_app e = false →
      ytdlp_extract_retry (.error e) fb = .error e) := by
  refine ⟨rfl, ?_, ?_⟩
  · intro hc
    simp [ytdlp_extract_retry, hc]
  · intro hc
    simp [ytdlp_extract_retry, hc]

/-- Witness for C5: a primary error carrying the "not available on this
app" marker is retried with the fallback outcome, while a plain network
error propagates unchanged. -/
theorem C5_extract_retry_witness :
    ytdlp_extract_retry (.error "Video Not Available on this App")
        (.ok ⟨"u2", "t2", "p2"⟩) = .ok ⟨"u2", "t2", "p2"⟩ ∧
    ytdlp_extract_retry (.error "HTTP Error 403")
        (.ok ⟨"u2", "t2", "p2"⟩) = .error "HTTP Error 403" := by
  constructor
  · exact (C5_extract_retry ⟨"u", "t", "p"⟩
      "Video Not Available on this App" (.ok ⟨"u2", "t2", "p2"⟩)).2.1
      (by decide)
  · exact (C5_extract_retry ⟨"u", "t", "p"⟩ "HTTP Error 403"
      (.ok ⟨"u2", "t2", "p2"⟩)).2.2 (by decide)

/-! ## Flat search (main1.2.py lines 302-321, claim C9) -/

/-- One raw entry of the yt-dlp flat search answer, with the dictionary
keys `ytdlp_search_flat` reads. -/
structure FlatEntry where
  title : Option String
  url : Option String
  webpage_url : Option String
  original_url : Option String
  duration : Option Nat
  channel : Option String
deriving DecidableEq, Repr

/-- Raw page reference of an entry, the chain of main1.2.py line 311:
`it.get("url") or it.get("webpage_url") or it.get("original_url")`. -/
def raw_page (it : FlatEntry) : Option String :=
  pyOrS it.url (pyOrS it.webpage_url it.original_url)

/-- Page normalization of main1.2.py lines 313-314: a truthy page that
does not start with "http" is rewritten to the fully-qualified watch
link. -/
def normalized_page (it : FlatEntry) : Option String :=
  if truthyS (raw_page it) &&
      !("http".data.isPrefixOf ((raw_page it).getD "").data) then
    some ("https://www.youtube.com/watch?v=" ++ (raw_page it).getD "")
  else raw_page it

/-- Loop body of `ytdlp_search_flat` (main1.2.py lines 309-318) for one
entry: defaulted title, the page chain with its normalization, and the
final `if page:` guard of line 317 deciding whether the candidate is
appended. -/
def entry_to_lite (it : FlatEntry) : Option TrackLite :=
  if truthyS (normalized_page it) then
    some ⟨pyOrStr it.title "제목 없음", (normalized_page it).getD "",
      it.duration, it.channel⟩
  else none

/-- Embeds `ytdlp_search_flat` (main1.2.py lines 302-321).  The `entries`
list is the upstream yt-dlp answer (`info["entries"]`, an environment
parameter); the candidates are accumulated in upstream order and the
function raises exactly when the accumulated list is empty (line 319). -/
def ytdlp_search_flat (entries : List FlatEntry) :
    Except String (List TrackLite) :=
  if entries.filterMap entry_to_lite = [] then .error "검색 결과가 없어."
  else .ok (entries.filterMap entry_to_lite)

theorem entry_to_lite_page_http (it : FlatEntry) (t : TrackLite)
    (h : entry_to_lite it = some t) : "http".data <+: t.page.data := by
  unfold entry_to_lite at h
  cases htr : truthyS (normalized_page it) with
  | false => rw [htr] at h; cases h
  | true =>
    rw [htr] at h
    simp only [if_true] at h
    cases h
    unfold normalized_page at htr ⊢
    cases hc : (truthyS (raw_page it) &&
        !("http".data.isPrefixOf ((raw_page it).getD "").data)) with
    | true =>
      have base : "http".data <+: "https://www.youtube.com/watch?v=".data :=
        by decide
      have step :=
        base.trans (List.prefix_append _ (((raw_page it).getD "").data))
      simp only [if_true, Option.getD_some, String.data_append]
      exact step
    | false =>
      rw [hc] at htr
      simp only [Bool.false_eq_true, if_false] at htr ⊢
      rw [Bool.and_eq_false_iff] at hc
      rcases hc with hc | hc
      · rw [hc] at htr; cases htr
      · simp only [Bool.not_eq_false', List.isPrefixOf_iff_prefix] at hc
        simpa using hc

/-- C9: flat search fails with the resolution error exactly when zero
candidates survive the loop; every produced candidate's page reference
begins with "http", and a raw page reference that did not begin with
"http" is normalized to the fully-qualified watch link; and the returned
sequence preserves upstream order (candidates of a front segment of the
entries precede, unchanged, those of the rest). -/
theorem C9_search_flat (entries l1 l2 : List FlatEntry) :
    (ytdlp_search_flat entries = .error "검색 결과가 없어." ↔
      entries.filterMap entry_to_lite = []) ∧
    (∀ out, ytdlp_search_flat entries = .ok out →
      ∀ t ∈ out, "http".data <+: t.page.data) ∧
    (∀ it p, raw_page it = some p → p ≠ "" →
      "http".data.isPrefixOf p.data = false →
      ∀ t, entry_to_lite it = some t →
        t.page = "https://www.youtube.com/watch?v=" ++ p) ∧
    ((l1 ++ l2).filterMap entry_to_lite =
      l1.filterMap entry_to_lite ++ l2.filterMap entry_to_lite) := by
  refine ⟨?_, ?_, ?_, ?_⟩
  · unfold ytdlp_search_flat
    split
    · next he => simp [he]
    · next he => simp [he]
  · intro out hout t ht
    have hmem : t ∈ entries.filterMap entry_to_lite := by
      unfold ytdlp_search_flat at hout
      split at hout
      · cases hout
      · cases hout; exact ht
    obtain ⟨it, _, hit⟩ := List.mem_filterMap.mp hmem
    exact entry_to_lite_page_http it t hit
  · intro it p hp hpne hnpre t ht
    have hnp : normalized_page it =
        some ("https://www.youtube.com/watch?v=" ++ p) := by
      unfold normalized_page
      rw [hp]
      simp [truthyS, hpne, hnpre]
    unfold entry_to_lite at ht
    rw [hnp] at ht
    split at ht
    · cases ht; simp
    · cases ht
  · exact List.filterMap_append l1 l2 entry_to_lite

/-- Witness for C9 at concrete inputs: an entry whose url is a bare video
id is normalized and returned; an entry list yielding no candidate makes
the search fail. -/
theorem C9_search_flat_witness :
    ytdlp_search_flat [⟨some "Song", some "abc123", none, none,
        some 210, some "Ch"⟩] =
      .ok [⟨"Song", "https://www.youtube.com/watch?v=abc123",
        some 210, some "Ch"⟩] ∧
    ytdlp_search_flat [⟨some "NoPage", none, none, none, none, none⟩] =
      .error "검색 결과가 없어." ∧
    (⟨"Song", "https://www.youtube.com/watch?v=abc123", some 210,
        some "Ch"⟩ : TrackLite).page =
      "https://www.youtube.com/watch?v=" ++ "abc123" := by
  refine ⟨by rfl, ?_, ?_⟩
  · exact (C9_search_flat [⟨some "NoPage", none, none, none, none, none⟩]
      [] []).1.mpr (by decide)
  · exact (C9_search_flat [] [] []).2.2.1
      ⟨some "Song", some "abc123", none, none, some 210, some "Ch"⟩
      "abc123" (by decide) (by decide) (by decide)
      ⟨"Song", "https://www.youtube.com/watch?v=abc123", some 210,
        some "Ch"⟩ (by decide)

/-! ## Full resolution: stream format selection (main1.2.py lines 268-290,
claim C4) -/

/-- One yt-dlp format dict with the keys `ytdlp_extract_one` reads.
Bitrates (`abr`, `tbr`) are modelled as naturals; Python numeric
falsiness (0 and None) is rendered by `pyOrN`. -/
structure MediaFormat where
  url : Option String
  acodec : Option String
  vcodec : Option String
  abr : Option Nat
  tbr : Option Nat
deriving DecidableEq, Repr

/-- Filter of main1.2.py line 271: a truthy url, a truthy acodec, and the
acodec different from "none".  Nothing here excludes a format that also
carries video. -/
def audio_ok (f : MediaFormat) : Bool :=
  truthyS f.url && truthyS f.acodec && !(f.acodec == some "none")

/-- Filter of main1.2.py lines 276-278: a truthy url and both codecs
neither absent nor "none". -/
def pair_ok (f : MediaFormat) : Bool :=
  truthyS f.url && !(f.acodec == none) && !(f.acodec == some "none") &&
    !(f.vcodec == none) && !(f.vcodec == some "none")

/-- Sort key of main1.2.py line 273: `f.get("abr") or f.get("tbr") or 0`. -/
def akey (f : MediaFormat) : Nat := pyOrN f.abr (pyOrN f.tbr 0)

/-- Sort key of main1.2.py line 280: `f.get("tbr") or 0`. -/
def pkey (f : MediaFormat) : Nat := pyOrN f.tbr 0

/-- Stable descending insertion: a later element passes an earlier one
only when its key is strictly larger, as in Python
`list.sort(key=k, reverse=True)`, which is stable. -/
def insert_desc {α : Type} (key : α → Nat) (f : α) :
    List α → List α
  | [] => [f]
  | g :: gs => if key f < key g then g :: insert_desc key f gs
               else f :: g :: gs

/-- Stable descending sort modelling Python
`list.sort(key=k, reverse=True)` (main1.2.py lines 273 and 280): both
produce the unique stable descending order, so the observable results
coincide. -/
def sort_desc {α : Type} (key : α → Nat) : List α → List α
  | [] => []
  | f :: fs => insert_desc key f (sort_desc key fs)

/-- First tier of main1.2.py lines 271-274: the url of the best
audio-carrying format, if any. -/
def audio_stream (fmts : List MediaFormat) : Option String :=
  match (sort_desc akey (fmts.filter audio_ok)).head? with
  | some f => f.url
  | none => none

/-- Second tier of main1.2.py lines 275-281: the url of the best combined
audio+video format, if any. -/
def pair_stream (fmts : List MediaFormat) : Option String :=
  match (sort_desc pkey (fmts.filter pair_ok)).head? with
  | some f => f.url
  | none => none

/-- Stream URL selection of `ytdlp_extract_one` (main1.2.py lines
268-285): the Python code assigns `stream_url` in tiers, each guarded by
`if not stream_url`, which this chain of conditionals renders: best
audio-carrying format, else best combined format, else the generic
`info.get("url")`, else the resolution error of line 285. -/
def pick_stream_url (fmts : List MediaFormat) (info_url : Option String) :
    Except String String :=
  if truthyS (audio_stream fmts) then .ok ((audio_stream fmts).getD "")
  else if truthyS (pair_stream fmts) then .ok ((pair_stream fmts).getD "")
  else if truthyS info_url then .ok (info_url.getD "")
  else .error "오디오 스트림 URL을 못 찾았어."

/-- Modelled from the claim wording of C4 (and spec section 4.2): the
first tier is restricted to audio-ONLY formats, read as: a real audio
codec and no video codec. -/
def audio_only_claim (f : MediaFormat) : Bool :=
  truthyS f.url && truthyS f.acodec && !(f.acodec == some "none") &&
    (f.vcodec == none || f.vcodec == some "none")

/-- Modelled from the claim wording of C4: first-tier stream of the
claim, the best audio-only format. -/
def claim_audio_stream (fmts : List MediaFormat) : Option String :=
  match (sort_desc akey (fmts.filter audio_only_claim)).head? with
  | some f => f.url
  | none => none

/-- Modelled from the claim wording of C4: the selection priority as the
claim states it, differing from `pick_stream_url` only in the first
tier. -/
def claim_pick_stream (fmts : List MediaFormat) (info_url : Option String) :
    Except String String :=
  if truthyS (claim_audio_stream fmts) then
    .ok ((claim_audio_stream fmts).getD "")
  else if truthyS (pair_stream fmts) then .ok ((pair_stream fmts).getD "")
  else if truthyS info_url then .ok (info_url.getD "")
  else .error "오디오 스트림 URL을 못 찾았어."

theorem insert_desc_head {α : Type} (key : α → Nat) (f : α) (l : List α) :
    (insert_desc key f l).head? =
      match l.head? with
      | none => some f
      | some g => if key f < key g then some g else some f := by
  cases l with
  | nil => rfl
  | cons g gs =>
    unfold insert_desc
    split
    · next hlt => simp [hlt]
    · next hlt => simp [hlt]

theorem insert_desc_mem {α : Type} (key : α → Nat) (f x : α)
    (l : List α) : x ∈ insert_desc key f l ↔ x = f ∨ x ∈ l := by
  induction l with
  | nil => simp [insert_desc]
  | cons g gs ih =>
    unfold insert_desc
    split
    · rw [List.mem_cons, ih, List.mem_cons]
      tauto
    · rw [List.mem_cons]

theorem sort_desc_head_max {α : Type} (key : α → Nat) (l : List α)
    (h : l ≠ []) :
    ∃ g, (sort_desc key l).head? = some g ∧ g ∈ l ∧
      ∀ f ∈ l, key f ≤ key g := by
  induction l with
  | nil => exact absurd rfl h
  | cons f fs ih =>
    by_cases hfs : fs = []
    · subst hfs
      exact ⟨f, by simp [sort_desc, insert_desc], by simp, by simp⟩
    · obtain ⟨g, hg1, hg2, hg3⟩ := ih hfs
      have hhead := insert_desc_head key f (sort_desc key fs)
      rw [hg1] at hhead
      by_cases hlt : key f < key g
      · refine ⟨g, ?_, List.mem_cons_of_mem f hg2, ?_⟩
        · show (insert_desc key f (sort_desc key fs)).head? = some g
          rw [hhead]
          simp [hlt]
        · intro x hx
          rcases List.mem_cons.mp hx with rfl | hx
          · exact Nat.le_of_lt hlt
          · exact hg3 x hx
      · refine ⟨f, ?_, List.mem_cons_self f fs, ?_⟩
        · show (insert_desc key f (sort_desc key fs)).head? = some f
          rw [hhead]
          simp [hlt]
        · intro x hx
          rcases List.mem_cons.mp hx with rfl | hx
          · exact Nat.le_refl _
          · exact Nat.le_trans (hg3 x hx) (Nat.le_of_not_lt hlt)

/-- Counterexample to C4 as stated: with a combined audio+video format of
effective bitrate 100 and an audio-only format of bitrate 50, the code
selects the combined format's url "A", while the claimed policy (highest
bitrate among audio-ONLY formats first) selects "B". -/
theorem C4_counterexample :
    pick_stream_url
        [⟨some "A", some "mp4a.40.2", some "avc1", none, some 100⟩,
         ⟨some "B", some "opus", some "none", some 50, none⟩] none =
      .ok "A" ∧
    claim_pick_stream
        [⟨some "A", some "mp4a.40.2", some "avc1", none, some 100⟩,
         ⟨some "B", some "opus", some "none", some 50, none⟩] none =
      .ok "B" ∧
    audio_only_claim
        ⟨some "A", some "mp4a.40.2", some "avc1", none, some 100⟩ =
      false := by
  refine ⟨by rfl, by rfl, by rfl⟩

/-- C4 amended: the first tier takes the highest-effective-bitrate
(`abr`, else `tbr`, else 0) format among those with a URL and a real
audio codec, whether or not they also carry video; if none, the
highest-`tbr` format having both audio and video codecs; if none, the
generic stream URL when truthy; and otherwise the resolution error. -/
theorem C4_amended (fmts : List MediaFormat) (iu : Option String) :
    (fmts.filter audio_ok ≠ [] →
      ∃ g ∈ fmts, audio_ok g = true ∧
        pick_stream_url fmts iu = .ok (g.url.getD "") ∧
        ∀ f ∈ fmts, audio_ok f = true → akey f ≤ akey g) ∧
    (fmts.filter audio_ok = [] → fmts.filter pair_ok ≠ [] →
      ∃ g ∈ fmts, pair_ok g = true ∧
        pick_stream_url fmts iu = .ok (g.url.getD "") ∧
        ∀ f ∈ fmts, pair_ok f = true → pkey f ≤ pkey g) ∧
    (fmts.filter audio_ok = [] → fmts.filter pair_ok = [] →
      pick_stream_url fmts iu =
        if truthyS iu then .ok (iu.getD "")
        else .error "오디오 스트림 URL을 못 찾았어.") := by
  refine ⟨?_, ?_, ?_⟩
  · intro hne
    obtain ⟨g, hg1, hg2, hg3⟩ := sort_desc_head_max akey _ hne
    obtain ⟨hgf, hga⟩ := List.mem_filter.mp hg2
    have hstream : audio_stream fmts = g.url := by
      unfold audio_stream
      rw [hg1]
    have htr : truthyS g.url = true := by
      have := hga
      unfold audio_ok at this
      simp only [Bool.and_eq_true] at this
      exact this.1.1
    refine ⟨g, hgf, hga, ?_, ?_⟩
    · unfold pick_stream_url
      rw [hstream, htr]
      simp
    · intro f hf hfa
      exact hg3 f (List.mem_filter.mpr ⟨hf, hfa⟩)
  · intro ha hne
    obtain ⟨g, hg1, hg2, hg3⟩ := sort_desc_head_max pkey _ hne
    obtain ⟨hgf, hga⟩ := List.mem_filter.mp hg2
    have hstream : pair_stream fmts = g.url := by
      unfold pair_stream
      rw [hg1]
    have hnone : audio_stream fmts = none := by
      unfold audio_stream
      rw [ha]
      rfl
    have htr : truthyS g.url = true := by
      have := hga
      unfold pair_ok at this
      simp only [Bool.and_eq_true] at this
      exact this.1.1.1.1
    refine ⟨g, hgf, hga, ?_, ?_⟩
    · unfold pick_stream_url
      rw [hstream, hnone, htr]
      simp [truthyS]
    · intro f hf hfa
      exact hg3 f (List.mem_filter.mpr ⟨hf, hfa⟩)
  · intro ha hp
    have hnone : audio_stream fmts = none := by
      unfold audio_stream
      rw [ha]
      rfl
    have hnone2 : pair_stream fmts = none := by
      unfold pair_stream
      rw [hp]
      rfl
    unfold pick_stream_url
    rw [hnone, hnone2]
    simp [truthyS]

/-- Witness for C4 amended, at the counterexample's format list: the
first tier applies and returns the combined format's url "A". -/
theorem C4_amended_witness :
    ∃ g ∈ [(⟨some "A", some "mp4a.40.2", some "avc1", none,
        some 100⟩ : MediaFormat),
        ⟨some "B", some "opus", some "none", some 50, none⟩],
      audio_ok g = true ∧
      pick_stream_url
          [⟨some "A", some "mp4a.40.2", some "avc1", none, some 100⟩,
           ⟨some "B", some "opus", some "none", some 50, none⟩] none =
        .ok (g.url.getD "") ∧
      ∀ f ∈ [(⟨some "A", some "mp4a.40.2", some "avc1", none,
          some 100⟩ : MediaFormat),
          ⟨some "B", some "opus", some "none", some 50, none⟩],
        audio_ok f = true → akey f ≤ akey g :=
  (C4_amended
    [⟨some "A", some "mp4a.40.2", some "avc1", none, some 100⟩,
     ⟨some "B", some "opus", some "none", some 50, none⟩] none).1
    (by decide)

/-! ## Per-guild playback state (claims C2, C3, C7) -/

/-- Snapshot of one guild's mutable state across the globals of
main1.2.py: `players[gid].queue`, `players[gid].current`,
`pending_searches[gid]`, `choose_inflight[gid]`, the guild's voice client
(whether one is connected, whether it is playing or paused, whether a
non-bot member is in its channel) and the delay of a pending
`leave_tasks[gid]` timer, `none` when no timer is armed.  The
notification-channel bookkeeping (`LAST_TEXT_CHANNEL`) is outside every
claim and not modelled. -/
structure BotState where
  queue : List Track
  current : Option Track
  pending : Option (List TrackLite)
  inflight : Bool
  connected : Bool
  playing : Bool
  paused : Bool
  humans : Bool
  timer : Option Nat
deriving DecidableEq, Repr

/-- Embeds `play_next` (main1.2.py lines 324-359).  Empty queue (lines
326-331): clear `current` and, when connected with no human present, arm
the long 15-unit idle-leave timer.  Otherwise (lines 334-359): pop the
head into `current`; if the voice client is gone, rejoin the author's
channel when possible (lines 338-345) and give up otherwise; then cancel
any pending leave timer and start streaming (`vc.play` makes the voice
client playing). -/
def play_next (authorInVoice : Bool) (s : BotState) : BotState :=
  match s.queue with
  | [] =>
    if s.connected && !s.humans then
      { s with current := none, timer := some 15 }
    else { s with current := none }
  | t :: rest =>
    if !s.connected then
      if authorInVoice then
        { s with queue := rest, current := some t, connected := true, timer := none, playing := true, paused := false }
      else { s with queue := rest, current := some t }
    else
      { s with queue := rest, current := some t, timer := none, playing := true, paused := false }

/-- Embeds the completion path `after_play` → `track_end` (main1.2.py
lines 347-362): when the scheduled callback runs, the stream has ended,
so the voice client is no longer playing, and `play_next` runs again. -/
def track_end (authorInVoice : Bool) (s : BotState) : BotState :=
  play_next authorInVoice { s with playing := false, paused := false }

/-- Embeds `cmd_stop` (main1.2.py lines 475-485): clear the queue; stop
the voice client when it is playing or paused; then, when connected with
no human present, arm the short 5-unit idle-leave timer.  `current` is
not touched on this path. -/
def cmd_stop (s : BotState) : BotState :=
  let s1 : BotState := { s with queue := [] }
  let s2 : BotState :=
    if s1.connected && (s1.playing || s1.paused) then
      { s1 with playing := false, paused := false }
    else s1
  if s2.connected && !s2.humans then { s2 with timer := some 5 } else s2

/-- Embeds the enqueue tail of `cmd_play` (main1.2.py lines 437-445),
entered once the track is resolved: append the track, cancel any pending
leave timer, and run `play_next` when the voice client is not playing
and nothing is current.  (The surrounding guild lock is the subject of
claim C1 and modelled separately.) -/
def cmd_play_enqueue (authorInVoice : Bool) (t : Track) (s : BotState) :
    BotState :=
  let s1 : BotState := { s with queue := s.queue ++ [t], timer := none }
  if !s1.playing && s1.current.isNone then play_next authorInVoice s1
  else s1

/-- Embeds main1.2.py line 413: a new search replaces the guild's pending
candidate list wholesale. -/
def store_search (rs : List TrackLite) (s : BotState) : BotState :=
  { s with pending := some rs }

/-- Outcome signalled by one `_handle_pick` invocation. -/
inductive PickOutcome where
  | wrongGuild
  | processing
  | invalidSelection
  | needVoice
  | extractFail (e : String)
  | added (t : Track)
deriving DecidableEq, Repr

/-- Embeds the try-block of `ChooseView._handle_pick` (main1.2.py lines
190-228), entered with the in-flight flag already set: candidate-list
and 1..N range check against the currently stored list (191-193),
auto-join (198-202), full extraction (206-208, `resolve` standing for
`ytdlp_extract_one` applied to the chosen candidate's page), enqueue
plus bookkeeping (211-215), and the playback trigger (217-221). -/
def handle_pick_body (resolve : String → Except String Track)
    (userInVoice : Bool) (s : BotState) (index : Nat) :
    BotState × PickOutcome :=
  match s.pending with
  | none => (s, .invalidSelection)
  | some results =>
    if h : 1 ≤ index ∧ index ≤ results.length then
      if !s.connected && !userInVoice then (s, .needVoice)
      else
        let s1 : BotState :=
          if !s.connected then { s with connected := true } else s
        match resolve (results.get ⟨index - 1, by omega⟩).page with
        | .error e => (s1, .extractFail e)
        | .ok t =>
          let s2 : BotState := { s1 with queue := s1.queue ++ [t], timer := none, pending := none }
          if s2.connected && !s2.playing && s2.current.isNone then
            (play_next userInVoice s2, .added t)
          else (s2, .added t)
    else (s, .invalidSelection)

/-- Embeds `ChooseView._handle_pick` (main1.2.py lines 174-230): guild
check (181), duplicate-click rejection (186-187), atomic flag set (188,
no suspension point between the check and the set), the try-block body,
and the `finally` clearing the flag (229-230). -/
def handle_pick (resolve : String → Except String Track)
    (userInVoice guildOk : Bool) (s : BotState) (index : Nat) :
    BotState × PickOutcome :=
  if !guildOk then (s, .wrongGuild)
  else if s.inflight then (s, .processing)
  else
    let r := handle_pick_body resolve userInVoice
      { s with inflight := true } index
    ({ r.1 with inflight := false }, r.2)

/-- C2: a select issued while the guild's in-flight flag is set is
rejected with the "processing" signal and changes nothing; hence of two
concurrent selects on one guild, the one whose (atomic) check-and-set
runs second — in the state the first left, with the flag set — is
rejected while the first proceeds; a select with a valid index, stored
candidates and a successful resolution proceeds to resolve and enqueue;
and every select that set the flag ends with the flag cleared, on every
exit path of the body. -/
theorem C2_choose_inflight (resolve : String → Except String Track)
    (uv : Bool) (s : BotState) (i j : Nat) :
    (s.inflight = true →
      handle_pick resolve uv true s i = (s, .processing)) ∧
    (s.inflight = false →
      handle_pick resolve uv true { s with inflight := true } j =
        ({ s with inflight := true }, .processing)) ∧
    (s.inflight = false →
      (handle_pick resolve uv true s i).1.inflight = false) ∧
    (∀ rs t, s.inflight = false → s.pending = some rs →
      1 ≤ i → i ≤ rs.length → s.connected = true →
      (∀ p, resolve p = .ok t) →
      (handle_pick resolve uv true s i).2 = .added t) := by
  refine ⟨?_, ?_, ?_, ?_⟩
  · intro h
    simp [handle_pick, h]
  · intro _
    simp [handle_pick]
  · intro h
    simp [handle_pick, h]
  · intro rs t h0 hp hi1 hi2 hc hres
    simp only [handle_pick, Bool.not_true, Bool.false_eq_true, if_false,
      h0, if_true]
    simp only [handle_pick_body, hp]
    rw [dif_pos ⟨hi1, hi2⟩]
    simp only [hc, Bool.not_true, Bool.false_and, Bool.false_eq_true,
      if_false, hres]
    split <;> rfl

/-- Witness for C2 at a concrete one-candidate state: a call with the
flag set is rejected as "processing"; a call with the flag clear ends
with the flag clear and reports the resolved track as added. -/
theorem C2_choose_inflight_witness :
    handle_pick (fun _ => .ok ⟨"u", "T", "u"⟩) true true
        ⟨[], none, some [⟨"t1", "p1", none, none⟩], true, true, false,
          false, true, none⟩ 1 =
      (⟨[], none, some [⟨"t1", "p1", none, none⟩], true, true, false,
          false, true, none⟩, .processing) ∧
    (handle_pick (fun _ => .ok ⟨"u", "T", "u"⟩) true true
        ⟨[], none, some [⟨"t1", "p1", none, none⟩], false, true, false,
          false, true, none⟩ 1).1.inflight = false ∧
    (handle_pick (fun _ => .ok ⟨"u", "T", "u"⟩) true true
        ⟨[], none, some [⟨"t1", "p1", none, none⟩], false, true, false,
          false, true, none⟩ 1).2 = .added ⟨"u", "T", "u"⟩ := by
  refine ⟨?_, ?_, ?_⟩
  · exact (C2_choose_inflight (fun _ => .ok ⟨"u", "T", "u"⟩) true
      ⟨[], none, some [⟨"t1", "p1", none, none⟩], true, true, false,
        false, true, none⟩ 1 1).1 rfl
  · exact (C2_choose_inflight (fun _ => .ok ⟨"u", "T", "u"⟩) true
      ⟨[], none, some [⟨"t1", "p1", none, none⟩], false, true, false,
        false, true, none⟩ 1 1).2.2.1 rfl
  · exact (C2_choose_inflight (fun _ => .ok ⟨"u", "T", "u"⟩) true
      ⟨[], none, some [⟨"t1", "p1", none, none⟩], false, true, false,
        false, true, none⟩ 1 1).2.2.2 [⟨"t1", "p1", none, none⟩]
      ⟨"u", "T", "u"⟩ rfl rfl (by decide) (by decide) rfl (fun _ => rfl)

/-- Counterexample to C3 as stated: an older two-candidate list has been
replaced by a newer search; a selection index that referred to the old
list but is in range of the new list is NOT rejected with an invalid
selection — it resolves and enqueues the NEW list's candidate at that
index. -/
theorem C3_counterexample :
    (handle_pick (fun p => .ok ⟨p, "T", p⟩) true true
        (store_search [⟨"New1", "pn1", none, none⟩,
            ⟨"New2", "pn2", none, none⟩]
          (store_search [⟨"Old1", "po1", none, none⟩,
              ⟨"Old2", "po2", none, none⟩]
            ⟨[], some ⟨"cu", "ct", "cp"⟩, none, false, true, true, false,
              true, none⟩))
        2).2 = .added ⟨"pn2", "T", "pn2"⟩ := by rfl

/-- C3 amended: a new search replaces the pending candidate list
wholesale; a select with no stored list, or with an index outside 1..N
of the CURRENTLY stored list, is rejected without enqueueing or any
state change; and an in-range select resolves the currently stored
list's candidate at that index — hence never a candidate of an older,
replaced list, but it does not fail merely because a newer search
replaced the list since the selection was offered. -/
theorem C3_amended (resolve : String → Except String Track)
    (uv : Bool) (s : BotState) (rs : List TrackLite) (i : Nat) :
    ((store_search rs s).pending = some rs) ∧
    (s.inflight = false → s.pending = none →
      handle_pick resolve uv true s i = (s, .invalidSelection)) ∧
    (∀ rs0, s.inflight = false → s.pending = some rs0 →
      ¬(1 ≤ i ∧ i ≤ rs0.length) →
      handle_pick resolve uv true s i = (s, .invalidSelection)) ∧
    (∀ rs0 (h : 1 ≤ i ∧ i ≤ rs0.length), s.inflight = false →
      s.pending = some rs0 → s.connected = true →
      (handle_pick resolve uv true s i).2 =
        (match resolve (rs0.get ⟨i - 1, by omega⟩).page with
         | .error e => PickOutcome.extractFail e
         | .ok t => PickOutcome.added t)) := by
  refine ⟨rfl, ?_, ?_, ?_⟩
  · intro h0 hp
    simp only [handle_pick, Bool.not_true, Bool.false_eq_true, if_false,
      h0, if_true]
    simp only [handle_pick_body, hp]
    cases s
    simp_all
  · intro rs0 h0 hp hrange
    simp only [handle_pick, Bool.not_true, Bool.false_eq_true, if_false,
      h0, if_true]
    simp only [handle_pick_body, hp]
    rw [dif_neg hrange]
    cases s
    simp_all
  · intro rs0 h h0 hp hc
    simp only [handle_pick, Bool.not_true, Bool.false_eq_true, if_false,
      h0, if_true]
    simp only [handle_pick_body, hp]
    rw [dif_pos h]
    simp only [hc, Bool.not_true, Bool.false_and, Bool.false_eq_true,
      if_false]
    cases hres : resolve (rs0.get ⟨i - 1, by omega⟩).page with
    | error e => simp [hres]
    | ok t =>
      simp only [hres]
      split <;> rfl

/-- Witness for C3 amended at concrete inputs: a select with no stored
list is rejected unchanged, an out-of-range select is rejected
unchanged, and an in-range select reports the resolution of the stored
candidate's page. -/
theorem C3_amended_witness :
    handle_pick (fun p => .ok ⟨p, "T", p⟩) true true
        ⟨[], none, none, false, true, true, false, true, none⟩ 1 =
      (⟨[], none, none, false, true, true, false, true, none⟩,
        .invalidSelection) ∧
    handle_pick (fun p => .ok ⟨p, "T", p⟩) true true
        ⟨[], none, some [⟨"t1", "p1", none, none⟩], false, true, true,
          false, true, none⟩ 3 =
      (⟨[], none, some [⟨"t1", "p1", none, none⟩], false, true, true,
          false, true, none⟩, .invalidSelection) ∧
    (handle_pick (fun p => .ok ⟨p, "T", p⟩) true true
        ⟨[], none, some [⟨"t1", "p1", none, none⟩], false, true, true,
          false, true, none⟩ 1).2 = .added ⟨"p1", "T", "p1"⟩ := by
  refine ⟨?_, ?_, ?_⟩
  · exact (C3_amended (fun p => .ok ⟨p, "T", p⟩) true
      ⟨[], none, none, false, true, true, false, true, none⟩ [] 1).2.1
      rfl rfl
  · exact (C3_amended (fun p => .ok ⟨p, "T", p⟩) true
      ⟨[], none, some [⟨"t1", "p1", none, none⟩], false, true, true,
        false, true, none⟩ [] 3).2.2.1 [⟨"t1", "p1", none, none⟩]
      rfl rfl (by decide)
  · exact (C3_amended (fun p => .ok ⟨p, "T", p⟩) true
      ⟨[], none, some [⟨"t1", "p1", none, none⟩], false, true, true,
        false, true, none⟩ [] 1).2.2.2 [⟨"t1", "p1", none, none⟩]
      (by decide) rfl rfl rfl

/-- Counterexample to C7 as stated: stop while two tracks are queued and
one is playing (no human present).  The queue empties, playback halts
and the short 5-unit timer is armed — but `current` does NOT become
absent at that point: `cmd_stop` never touches it. -/
theorem C7_counterexample :
    (cmd_stop ⟨[⟨"u2", "t2", "p2"⟩, ⟨"u3", "t3", "p3"⟩],
        some ⟨"u1", "t1", "p1"⟩, none, false, true, true, false, false,
        none⟩).queue = [] ∧
    (cmd_stop ⟨[⟨"u2", "t2", "p2"⟩, ⟨"u3", "t3", "p3"⟩],
        some ⟨"u1", "t1", "p1"⟩, none, false, true, true, false, false,
        none⟩).playing = false ∧
    (cmd_stop ⟨[⟨"u2", "t2", "p2"⟩, ⟨"u3", "t3", "p3"⟩],
        some ⟨"u1", "t1", "p1"⟩, none, false, true, true, false, false,
        none⟩).timer = some 5 ∧
    (cmd_stop ⟨[⟨"u2", "t2", "p2"⟩, ⟨"u3", "t3", "p3"⟩],
        some ⟨"u1", "t1", "p1"⟩, none, false, true, true, false, false,
        none⟩).current = some ⟨"u1", "t1", "p1"⟩ := by
  refine ⟨rfl, rfl, rfl, rfl⟩

/-- C7 amended: `cmd_stop` empties the queue, halts playback (when a
voice client is connected), arms the short 5-unit idle-leave timer when
no human remains, and leaves `current` unchanged; `current` becomes
absent only when the completion callback triggered by the stop
subsequently runs `play_next` on the emptied queue — and that run
re-arms the idle-leave timer with the LONG 15-unit grace when no human
remains. -/
theorem C7_amended (s : BotState) (aiv : Bool) :
    (cmd_stop s).queue = [] ∧
    (cmd_stop s).current = s.current ∧
    (s.connected = true →
      (cmd_stop s).playing = false ∧ (cmd_stop s).paused = false) ∧
    (s.connected = true → s.humans = false →
      (cmd_stop s).timer = some 5) ∧
    (track_end aiv (cmd_stop s)).current = none ∧
    (track_end aiv (cmd_stop s)).queue = [] ∧
    (s.connected = true → s.humans = false →
      (track_end aiv (cmd_stop s)).timer = some 15) := by
  obtain ⟨q, c, pd, infl, con, pl, pa, hu, ti⟩ := s
  cases con <;> cases pl <;> cases pa <;> cases hu <;>
    simp [cmd_stop, track_end, play_next]

/-- Witness for C7 amended at the counterexample's concrete state,
running the completion callback after the stop: `current` clears and the
timer is re-armed at 15. -/
theorem C7_amended_witness :
    (track_end true (cmd_stop ⟨[⟨"u2", "t2", "p2"⟩, ⟨"u3", "t3", "p3"⟩],
        some ⟨"u1", "t1", "p1"⟩, none, false, true, true, false, false,
        none⟩)).current = none ∧
    (track_end true (cmd_stop ⟨[⟨"u2", "t2", "p2"⟩, ⟨"u3", "t3", "p3"⟩],
        some ⟨"u1", "t1", "p1"⟩, none, false, true, true, false, false,
        none⟩)).timer = some 15 := by
  refine ⟨?_, ?_⟩
  · exact (C7_amended ⟨[⟨"u2", "t2", "p2"⟩, ⟨"u3", "t3", "p3"⟩],
      some ⟨"u1", "t1", "p1"⟩, none, false, true, true, false, false,
      none⟩ true).2.2.2.2.1
  · exact (C7_amended ⟨[⟨"u2", "t2", "p2"⟩, ⟨"u3", "t3", "p3"⟩],
      some ⟨"u1", "t1", "p1"⟩, none, false, true, true, false, false,
      none⟩ true).2.2.2.2.2.2 rfl rfl

/-! ## Queue/current disjointness under object identity (claim C8) -/

/-- A Track object as the Python runtime holds it: the payload plus an
allocation identity (`tid`).  The Python `Track` class defines no
equality, so membership of such objects is identity-based, and every
resolution constructs a fresh object (main1.2.py lines 290, 396, 401). -/
structure ATrack where
  tid : Nat
  data : Track
deriving DecidableEq, Repr

/-- The queue/current/voice fragment of a guild's state under allocation
identities, with the next fresh identity. -/
structure IdState where
  queue : List ATrack
  current : Option ATrack
  playing : Bool
  nextId : Nat
deriving DecidableEq, Repr

/-- `play_next` (main1.2.py lines 324-335) restricted to the fields of
`IdState`: an empty queue clears `current` (line 327); otherwise the
head is popped off the queue into `current` at the moment playback
starts (lines 334-335). -/
def id_play_next (s : IdState) : IdState :=
  match s.queue with
  | [] => { s with current := none }
  | t :: rest => { s with queue := rest, current := some t, playing := true }

/-- An enqueue path (`cmd_play` lines 437-445 or `_handle_pick` lines
211-221) restricted to `IdState`: a freshly allocated Track object is
appended, and `play_next` runs when nothing is playing and nothing is
current. -/
def id_enqueue (d : Track) (s : IdState) : IdState :=
  let s1 : IdState := { s with queue := s.queue ++ [⟨s.nextId, d⟩], nextId := s.nextId + 1 }
  if !s1.playing && s1.current.isNone then id_play_next s1 else s1

/-- The completion callback (main1.2.py lines 347-362) restricted to
`IdState`: the stream has ended, `play_next` runs again. -/
def id_track_end (s : IdState) : IdState :=
  id_play_next { s with playing := false }

/-- `cmd_stop` (main1.2.py lines 475-485) restricted to `IdState`. -/
def id_stop (s : IdState) : IdState :=
  { s with queue := [], playing := false }

/-- The operations of main1.2.py that touch a guild's queue/current. -/
inductive IdOp where
  | enqueue (d : Track)
  | trackEnd
  | stop
deriving DecidableEq, Repr

def id_step (s : IdState) : IdOp → IdState
  | .enqueue d => id_enqueue d s
  | .trackEnd => id_track_end s
  | .stop => id_stop s

/-- Run a sequence of operations from the initial guild state
(`GuildPlayer.__init__`, main1.2.py lines 140-143). -/
def id_run (ops : List IdOp) : IdState :=
  ops.foldl id_step ⟨[], none, false, 0⟩

/-- Allocation-identity invariant: queue identities are distinct and
below the allocation counter, and the current track's identity is below
the counter and absent from the queue. -/
def IdInv (s : IdState) : Prop :=
  (s.queue.map ATrack.tid).Nodup ∧
  (∀ i ∈ s.queue.map ATrack.tid, i < s.nextId) ∧
  (∀ c, s.current = some c →
    c.tid < s.nextId ∧ c.tid ∉ s.queue.map ATrack.tid)

theorem id_play_next_inv (s : IdState) (h : IdInv s) :
    IdInv (id_play_next s) := by
  obtain ⟨q, cur, pl, nid⟩ := s
  obtain ⟨h1, h2, h3⟩ := h
  cases q with
  | nil =>
    exact ⟨h1, h2, by intro c hc; cases hc⟩
  | cons t rest =>
    show IdInv ⟨rest, some t, true, nid⟩
    rw [List.map_cons, List.nodup_cons] at h1
    refine ⟨h1.2, ?_, ?_⟩
    · intro i hi
      exact h2 i (by simp [hi])
    · intro c hc
      cases hc
      exact ⟨h2 t.tid (by simp), h1.1⟩

theorem id_enqueue_inv (d : Track) (s : IdState) (h : IdInv s) :
    IdInv (id_enqueue d s) := by
  obtain ⟨q, cur, pl, nid⟩ := s
  obtain ⟨h1, h2, h3⟩ := h
  replace h1 : (q.map ATrack.tid).Nodup := h1
  replace h2 : ∀ i ∈ q.map ATrack.tid, i < nid := h2
  replace h3 : ∀ c, cur = some c →
    c.tid < nid ∧ c.tid ∉ q.map ATrack.tid := h3
  have hmid : IdInv ⟨q ++ [⟨nid, d⟩], cur, pl, nid + 1⟩ := by
    refine ⟨?_, ?_, ?_⟩
    · show (List.map ATrack.tid (q ++ [⟨nid, d⟩])).Nodup
      rw [List.map_append]
      refine List.Nodup.append h1 (by simp) ?_
      intro a ha hb
      simp at hb
      subst hb
      exact absurd (h2 _ ha) (by omega)
    · show ∀ i ∈ List.map ATrack.tid (q ++ [⟨nid, d⟩]), i < nid + 1
      intro i hi
      rw [List.map_append] at hi
      rcases List.mem_append.mp hi with hi | hi
      · exact Nat.lt_trans (h2 i hi) (by omega)
      · simp at hi; omega
    · show ∀ c, cur = some c →
        c.tid < nid + 1 ∧ c.tid ∉ List.map ATrack.tid (q ++ [⟨nid, d⟩])
      intro c hc
      obtain ⟨hlt, hnin⟩ := h3 c hc
      refine ⟨by omega, ?_⟩
      rw [List.map_append]
      intro hmem
      rcases List.mem_append.mp hmem with hm | hm
      · exact hnin hm
      · simp at hm; omega
  show IdInv (if !pl && cur.isNone then
    id_play_next ⟨q ++ [⟨nid, d⟩], cur, pl, nid + 1⟩
    else ⟨q ++ [⟨nid, d⟩], cur, pl, nid + 1⟩)
  split
  · exact id_play_next_inv _ hmid
  · exact hmid

theorem id_step_inv (s : IdState) (op : IdOp) (h : IdInv s) :
    IdInv (id_step s op) := by
  cases op with
  | enqueue d => exact id_enqueue_inv d s h
  | trackEnd =>
    obtain ⟨q, cur, pl, nid⟩ := s
    exact id_play_next_inv ⟨q, cur, false, nid⟩ h
  | stop =>
    obtain ⟨q, cur, pl, nid⟩ := s
    obtain ⟨h1, h2, h3⟩ := h
    replace h3 : ∀ c, cur = some c →
      c.tid < nid ∧ c.tid ∉ q.map ATrack.tid := h3
    show IdInv ⟨[], cur, false, nid⟩
    refine ⟨by simp, by simp, ?_⟩
    intro c hc
    replace hc : cur = some c := hc
    exact ⟨(h3 c hc).1, by simp⟩

theorem id_foldl_inv (ops : List IdOp) (s : IdState) (h : IdInv s) :
    IdInv (ops.foldl id_step s) := by
  induction ops generalizing s with
  | nil => exact h
  | cons op rest ih => exact ih _ (id_step_inv s op h)

theorem id_init_inv : IdInv ⟨[], none, false, 0⟩ :=
  ⟨by simp, by simp, by intro c hc; cases hc⟩

/-- C8: in every state reachable from the initial guild state by
enqueues, completion callbacks and stops, the current track (a Python
object, compared by allocation identity) is not an element of the queue;
and `play_next` on a non-empty queue makes exactly the former queue head
current, removing it from the queue at that moment. -/
theorem C8_current_not_in_queue (ops : List IdOp) (c : ATrack) :
    ((id_run ops).current = some c → c ∉ (id_run ops).queue) ∧
    (∀ s : IdState, s.queue ≠ [] →
      (id_play_next s).current = s.queue.head? ∧
      (id_play_next s).queue = s.queue.tail) := by
  constructor
  · intro hc hmem
    have hinv := id_foldl_inv ops ⟨[], none, false, 0⟩ id_init_inv
    obtain ⟨_, _, h3⟩ := hinv
    obtain ⟨_, hnin⟩ := h3 c hc
    exact hnin (List.mem_map_of_mem ATrack.tid hmem)
  · intro s hne
    obtain ⟨q, cur, pl, nid⟩ := s
    cases q with
    | nil => exact absurd rfl hne
    | cons t rest => exact ⟨rfl, rfl⟩

/-- Witness for C8: enqueueing the same track data twice allocates two
distinct objects; after the first starts playing, the current object is
not in the queue even though a track with equal data is; and
`play_next` moves a concrete head out of the queue. -/
theorem C8_current_not_in_queue_witness :
    (id_run [.enqueue ⟨"u", "t", "p"⟩, .enqueue ⟨"u", "t", "p"⟩]).current =
      some ⟨0, "u", "t", "p"⟩ ∧
    (id_run [.enqueue ⟨"u", "t", "p"⟩,
        .enqueue ⟨"u", "t", "p"⟩]).queue = [⟨1, "u", "t", "p"⟩] ∧
    (⟨0, "u", "t", "p"⟩ : ATrack) ∉
      (id_run [.enqueue ⟨"u", "t", "p"⟩,
        .enqueue ⟨"u", "t", "p"⟩]).queue ∧
    (id_play_next ⟨[⟨5, "u", "t", "p"⟩], none, false, 6⟩).current =
      some ⟨5, "u", "t", "p"⟩ := by
  refine ⟨rfl, rfl, ?_, ?_⟩
  · exact (C8_current_not_in_queue
      [.enqueue ⟨"u", "t", "p"⟩, .enqueue ⟨"u", "t", "p"⟩]
      ⟨0, "u", "t", "p"⟩).1 rfl
  · exact ((C8_current_not_in_queue [] ⟨0, "u", "t", "p"⟩).2
      ⟨[⟨5, "u", "t", "p"⟩], none, false, 6⟩ (by decide)).1

/-! ## Idle-leave timer lifecycle (claim C6) -/

/-- One guild's slice of the timer bookkeeping of main1.2.py: `slot` is
the guild's entry of `leave_tasks` (the task most recently stored, which
may already be done), `armed` lists the identities of the created tasks
whose delayed action is still pending (created, not cancelled, not yet
run), and `nextTask` is the next fresh task identity. -/
structure TimerState where
  slot : Option Nat
  armed : List Nat
  nextTask : Nat
deriving DecidableEq, Repr

/-- Embeds `cancel_leave` (main1.2.py lines 42-45): pop the guild's
entry; if the popped task exists and is not done, cancel it (it stops
being pending); with no entry stored this is a no-op. -/
def cancel_leave (s : TimerState) : TimerState :=
  match s.slot with
  | none => s
  | some t => { s with slot := none, armed := s.armed.erase t }

/-- Embeds `schedule_leave` (main1.2.py lines 47-62): first
`cancel_leave`, then create a fresh delayed task and store it as the
guild's entry (line 62). -/
def schedule_leave (s : TimerState) : TimerState :=
  let s1 := cancel_leave s
  { slot := some s1.nextTask, armed := s1.armed ++ [s1.nextTask], nextTask := s1.nextTask + 1 }

/-- A pending task's delayed body runs to completion (the `_wait`
coroutine of main1.2.py lines 49-61 past its sleep): the task becomes
done and stops being pending; firing does not remove the `leave_tasks`
entry. -/
def timer_fire (t : Nat) (s : TimerState) : TimerState :=
  if t ∈ s.armed then { s with armed := s.armed.erase t } else s

/-- The operations acting on one guild's timer state. -/
inductive TimerOp where
  | sched
  | cancel
  | fire (t : Nat)
deriving DecidableEq, Repr

def timer_step (s : TimerState) : TimerOp → TimerState
  | .sched => schedule_leave s
  | .cancel => cancel_leave s
  | .fire t => timer_fire t s

/-- Run a sequence of timer operations from the initial state (no entry,
nothing pending). -/
def timer_run (ops : List TimerOp) : TimerState :=
  ops.foldl timer_step ⟨none, [], 0⟩

/-- Invariant of the timer bookkeeping: either nothing is pending, or
exactly one task is pending, it is the stored entry, and its identity is
below the allocation counter. -/
def TimerInv (s : TimerState) : Prop :=
  s.armed = [] ∨
    ∃ t, s.armed = [t] ∧ s.slot = some t ∧ t < s.nextTask

theorem cancel_leave_armed_nil (s : TimerState) (h : TimerInv s) :
    (cancel_leave s).armed = [] := by
  obtain ⟨slot, armed, nt⟩ := s
  rcases h with h | ⟨t, h1, h2, h3⟩
  · replace h : armed = [] := h
    subst h
    cases hs : slot with
    | none => simp [cancel_leave]
    | some t => simp [cancel_leave]
  · replace h1 : armed = [t] := h1
    replace h2 : slot = some t := h2
    subst h1
    subst h2
    simp [cancel_leave]

theorem cancel_leave_keeps (s : TimerState) :
    (cancel_leave s).nextTask = s.nextTask := by
  obtain ⟨slot, armed, nt⟩ := s
  cases slot <;> simp [cancel_leave]

theorem schedule_leave_spec (s : TimerState) (h : TimerInv s) :
    (schedule_leave s).armed = [s.nextTask] ∧
    (schedule_leave s).slot = some s.nextTask ∧
    (schedule_leave s).nextTask = s.nextTask + 1 := by
  have hnil := cancel_leave_armed_nil s h
  have hnt := cancel_leave_keeps s
  unfold schedule_leave
  refine ⟨?_, ?_, ?_⟩ <;> simp [hnil, hnt]

theorem schedule_leave_inv (s : TimerState) (h : TimerInv s) :
    TimerInv (schedule_leave s) := by
  obtain ⟨h1, h2, h3⟩ := schedule_leave_spec s h
  exact Or.inr ⟨s.nextTask, h1, h2, by omega⟩

theorem timer_fire_inv (t : Nat) (s : TimerState) (h : TimerInv s) :
    TimerInv (timer_fire t s) := by
  unfold timer_fire
  split
  · next hmem =>
    rcases h with h | ⟨u, h1, h2, h3⟩
    · rw [h] at hmem; cases hmem
    · left
      show (s.armed.erase t) = []
      rw [h1] at hmem ⊢
      simp at hmem
      subst hmem
      simp
  · exact h

theorem timer_step_inv (s : TimerState) (op : TimerOp)
    (h : TimerInv s) : TimerInv (timer_step s op) := by
  cases op with
  | sched => exact schedule_leave_inv s h
  | cancel => exact Or.inl (cancel_leave_armed_nil s h)
  | fire t => exact timer_fire_inv t s h

theorem timer_foldl_inv (ops : List TimerOp) (s : TimerState)
    (h : TimerInv s) : TimerInv (ops.foldl timer_step s) := by
  induction ops generalizing s with
  | nil => exact h
  | cons op rest ih => exact ih _ (timer_step_inv s op h)

/-- C6: in every state reachable by schedules, cancellations and timer
firings, at most one idle-leave timer is pending for the guild;
`schedule_leave` first cancels every previously pending timer before
arming the fresh one; `cancel_leave` leaves nothing pending; and
`cancel_leave` is a no-op when no entry is stored. -/
theorem C6_single_timer (ops : List TimerOp) :
    ((timer_run ops).armed).length ≤ 1 ∧
    (∀ t ∈ (timer_run ops).armed,
      t ∉ (schedule_leave (timer_run ops)).armed) ∧
    (cancel_leave (timer_run ops)).armed = [] ∧
    (∀ s : TimerState, s.slot = none → cancel_leave s = s) := by
  have hinv : TimerInv (timer_run ops) :=
    timer_foldl_inv ops ⟨none, [], 0⟩ (Or.inl rfl)
  refine ⟨?_, ?_, cancel_leave_armed_nil _ hinv, ?_⟩
  · rcases hinv with h | ⟨t, h1, _, _⟩
    · simp [h]
    · simp [h1]
  · intro t hmem
    obtain ⟨ha, _, _⟩ := schedule_leave_spec _ hinv
    rw [ha]
    rcases hinv with h | ⟨u, h1, h2, h3⟩
    · rw [h] at hmem; cases hmem
    · rw [h1] at hmem
      simp at hmem
      subst hmem
      simp
      omega
  · intro s hs
    obtain ⟨slot, armed, nt⟩ := s
    replace hs : slot = none := hs
    subst hs
    rfl

/-- Witness for C6 after two consecutive schedules: a single timer is
pending, it is deactivated by a further schedule or cancel, and
cancelling with no stored entry changes nothing. -/
theorem C6_single_timer_witness :
    (timer_run [.sched, .sched]).armed = [1] ∧
    (1 ∉ (schedule_leave (timer_run [.sched, .sched])).armed) ∧
    (cancel_leave (timer_run [.sched, .sched])).armed = [] ∧
    cancel_leave ⟨none, [], 5⟩ = ⟨none, [], 5⟩ := by
  refine ⟨rfl, ?_, ?_, ?_⟩
  · exact (C6_single_timer [.sched, .sched]).2.1 1 (by decide)
  · exact (C6_single_timer [.sched, .sched]).2.2.1
  · exact (C6_single_timer [.sched, .sched]).2.2.2 ⟨none, [], 5⟩ rfl

/-! ## Lock coverage of the enqueue and playback-trigger paths
(claim C1) -/

/-- Atomic events of the code paths that append to a guild's queue or
decide to trigger `play_next`, together with the guild-lock
acquire/release events of `async with get_lock(...)`. -/
inductive LockEvt where
  | acquire
  | release
  | append
  | trigger
  | other
deriving DecidableEq, Repr

/-- Events of the enqueue tail of `cmd_play` (main1.2.py lines 437-445),
in source order: the `async with get_lock(ctx.guild.id)` acquisition,
get_player (other), the queue append, cancel_leave (other), the reply
(other), the is_playing/current check with its `play_next` call
(trigger), and the lock release on block exit. -/
def cmdPlayEvents : List LockEvt :=
  [.acquire, .other, .append, .other, .other, .trigger, .release]

/-- Events of the enqueue section of `ChooseView._handle_pick`
(main1.2.py lines 211-221), in source order: get_player (other), the
queue append, cancel_leave (other), the pending-candidates pop (other),
the last-channel store (other), and the is_playing/current check with
its `play_next` call (trigger).  The path contains no lock events. -/
def handlePickEvents : List LockEvt :=
  [.other, .append, .other, .other, .other, .trigger]

/-- Events of the completion path `after_play` → `track_end` (main1.2.py
lines 347-362): the scheduled coroutine only invokes `play_next`
(trigger); it contains no lock events. -/
def trackEndEvents : List LockEvt :=
  [.trigger]

/-- Checks, tracking the current lock depth, that every append and
trigger event occurs while the lock is held. -/
def guardedAtDepth : Nat → List LockEvt → Bool
  | _, [] => true
  | d, .acquire :: r => guardedAtDepth (d + 1) r
  | d, .release :: r => guardedAtDepth (d - 1) r
  | d, .append :: r => decide (0 < d) && guardedAtDepth d r
  | d, .trigger :: r => decide (0 < d) && guardedAtDepth d r
  | d, .other :: r => guardedAtDepth d r

/-- A path whose queue-append and playback-trigger decision both run
under the guild's lock. -/
def underLock (tr : List LockEvt) : Bool :=
  guardedAtDepth 0 tr

/-- Counterexample to C1 as stated: the button-selection path appends to
the queue and runs the playback-trigger decision with the guild lock
never acquired, and the completion callback invokes `play_next` without
it as well — so it is not the case that every queue-append plus
playback-trigger decision runs under the guild's mutationLock. -/
theorem C1_counterexample :
    underLock handlePickEvents = false ∧
    underLock trackEndEvents = false := by
  refine ⟨rfl, rfl⟩

/-- C1 amended: only the `cmd_play` command path performs its
queue-append and playback-trigger decision under the guild's
mutationLock; the button-selection path and the completion callback
perform theirs with the lock never acquired, so the lock does not
serialize `play_next` between a completion callback, a command-triggered
enqueue and a button-selection enqueue. -/
theorem C1_amended :
    underLock cmdPlayEvents = true ∧
    underLock handlePickEvents = false ∧
    underLock trackEndEvents = false := by
  refine ⟨rfl, rfl, rfl⟩

end Yuki
